import Mathlib

set_option maxHeartbeats 2000000

/-! Shallow embedding of the INDI driver runtime (`indidriver.c`): the
    read-only sanity cache (property registry), the inbound `dispatch`
    engine, the value applicators `IUUpdateSwitch` / `IUUpdateNumber` /
    `IUUpdateText` / `IUUpdateBLOB`, and the BLOB ping/pingRequest pacing
    of `IDSetBLOBVA`.  Machine doubles are modelled as `Rat`; the external
    collaborators that the spec declares out of scope (XML tokeniser,
    base64 codec, locale-neutral numeric parsing, the driver callbacks)
    appear either as plain data (parsed `XMLEle` values) or as events
    recorded in the dispatcher's output. -/

/-- Permission of a property, `IPerm` in the source. -/
inductive IPerm where
  | IP_RO
  | IP_WO
  | IP_RW
  deriving DecidableEq, Repr

/-- Switch state, `ISState` in the source. -/
inductive ISState where
  | ISS_ON
  | ISS_OFF
  deriving DecidableEq, Repr

/-- Property state, `IPState` in the source. -/
inductive IPState where
  | IPS_IDLE
  | IPS_OK
  | IPS_BUSY
  | IPS_ALERT
  deriving DecidableEq, Repr

/-- Switch vector rule, `ISRule` in the source. -/
inductive ISRule where
  | ISR_1OFMANY
  | ISR_ATMOST1
  | ISR_NOFMANY
  deriving DecidableEq, Repr

/-- INDI property type tag, the anonymous enum of `indidriver.c`. -/
inductive IndiType where
  | INDI_NUMBER
  | INDI_SWITCH
  | INDI_TEXT
  | INDI_LIGHT
  | INDI_BLOB
  | INDI_UNKNOWN
  deriving DecidableEq, Repr

/-- Accumulate a digit list (most significant first) into a natural. -/
def digitsToNat (ds : List Char) : Nat :=
  ds.foldl (fun a c => 10 * a + (c.toNat - 48)) 0

/-- Modelled from the spec: libc `atoi` (an out-of-scope provided
    interface), restricted to nonnegative decimal numerals as they occur
    in `size` / `enclen` attributes. -/
def atoiN (s : String) : Nat :=
  digitsToNat (s.data.takeWhile (fun c => c.isDigit))

/-- Split a character list into its leading digits and the rest. -/
def takeDigits (cs : List Char) : List Char × List Char :=
  (cs.takeWhile (fun c => c.isDigit), cs.dropWhile (fun c => c.isDigit))

/-- Strip an optional sign, returning the sign factor and the rest. -/
def stripSign : List Char → Int × List Char
  | '-' :: r => (-1, r)
  | '+' :: r => (1, r)
  | cs => (1, cs)

/-- Modelled from the spec: libc `atof` (locale-neutral numeric parsing is
    an out-of-scope provided interface), restricted to plain decimal
    numerals `[+-]digits[.digits]`; anything else parses as 0, as `atof`
    does on garbage.  The value is returned as an unreduced fraction
    (numerator, positive denominator) so that comparisons stay inside
    kernel-reducible integer arithmetic. -/
def atofParts (s : String) : Int × Nat :=
  let (sg, cs) := stripSign s.data
  let (ip, rest) := takeDigits cs
  match rest with
  | '.' :: r =>
      let (fp, _) := takeDigits r
      (sg * ((digitsToNat ip : Int) * (10 ^ fp.length : Nat) + (digitsToNat fp : Int)),
        10 ^ fp.length)
  | _ => (sg * (digitsToNat ip : Int), 1)

/-- Rational value of a parsed decimal, used where no concrete kernel
    evaluation is required. -/
def atofR (s : String) : Rat :=
  ((atofParts s).1 : Rat) / ((atofParts s).2 : Rat)

/-- Decide whether a string is a plain decimal numeral (optional sign,
    digits, optional fractional part), the fragment of `f_scansexa`'s
    grammar the claims exercise. -/
def isPlainDecimal (s : String) : Bool :=
  let (_, cs) := stripSign s.data
  let (ip, rest) := takeDigits cs
  match rest with
  | [] => !ip.isEmpty
  | '.' :: r =>
      let (fp, tail) := takeDigits r
      tail.isEmpty && (!ip.isEmpty || !fp.isEmpty)
  | _ => false

/-- Modelled from the spec: `f_scansexa` (out-of-scope locale-neutral
    sexagesimal parser), restricted to the plain-decimal branch of its
    grammar; `none` stands for the negative return of the C function. -/
def f_scansexa (s : String) : Option Rat :=
  if isPlainDecimal s then some (atofR s) else none

/-- XML attribute as delivered by the out-of-scope tokeniser. -/
structure XMLAtt where
  aname : String
  avalue : String
  deriving DecidableEq, Repr

/-- XML element as delivered by the out-of-scope tokeniser: tag,
    attributes, child elements and the pcdata body. -/
inductive XMLEle where
  | mk (tag : String) (atts : List XMLAtt) (children : List XMLEle) (pcdata : String)

/-- Tag accessor, `tagXMLEle` in the tokeniser interface. -/
def XMLEle.tag : XMLEle → String
  | .mk t _ _ _ => t

/-- Attribute list accessor. -/
def XMLEle.atts : XMLEle → List XMLAtt
  | .mk _ a _ _ => a

/-- Child list accessor, the `nextXMLEle` iteration order. -/
def XMLEle.children : XMLEle → List XMLEle
  | .mk _ _ c _ => c

/-- Body accessor, `pcdataXMLEle` in the tokeniser interface. -/
def XMLEle.pcdata : XMLEle → String
  | .mk _ _ _ p => p

/-- Lookup of an attribute by name, `findXMLAtt` in the tokeniser
    interface: first attribute with the given name. -/
def findXMLAtt (root : XMLEle) (nm : String) : Option XMLAtt :=
  root.atts.find? (fun a => a.aname == nm)

/-- Registry entry of the read-only sanity cache, `ROSC` in the source.
    The back reference `ptr` of the C struct points at the driver's vector;
    the model keeps only the key fields the dispatcher reads (the def
    re-emission is recorded as an event carrying the entry's key). -/
structure ROSC where
  propName : String
  devName : String
  perm : IPerm
  ptype : IndiType
  deriving DecidableEq, Repr

/-- Linear scan of the property cache, `rosc_find` in the source: first
    entry whose property and device names both match. -/
def rosc_find (reg : List ROSC) (propName devName : String) : Option ROSC :=
  reg.find? (fun sc => sc.propName == propName && sc.devName == devName)

/-- Guarded insertion, `rosc_add_unique` in the source: append the entry
    only when the (property, device) key is not cached yet. -/
def rosc_add_unique (reg : List ROSC) (propName devName : String)
    (perm : IPerm) (ptype : IndiType) : List ROSC :=
  match rosc_find reg propName devName with
  | some _ => reg
  | none => reg ++ [⟨propName, devName, perm, ptype⟩]

/-- Switch member, `ISwitch` in the source (value field `s`). -/
structure ISwitch where
  sname : String
  slabel : String
  s : ISState
  deriving DecidableEq, Repr

/-- Switch vector property, `ISwitchVectorProperty` in the source; `r` is
    the rule, `s` the state, `sp` the ordered member list. -/
structure ISwitchVectorProperty where
  device : String
  vname : String
  vlabel : String
  r : ISRule
  s : IPState
  sp : List ISwitch
  deriving DecidableEq, Repr

/-- Number member, `INumber` in the source; doubles are modelled as `Rat`. -/
structure INumber where
  nname : String
  nlabel : String
  format : String
  min : Rat
  max : Rat
  step : Rat
  value : Rat
  deriving DecidableEq, Repr

/-- Number vector property, `INumberVectorProperty` in the source. -/
structure INumberVectorProperty where
  device : String
  vname : String
  vlabel : String
  p : IPerm
  s : IPState
  np : List INumber
  deriving DecidableEq, Repr

/-- Text member, `IText` in the source; `text` is the heap string owned
    through `IUSaveText`. -/
structure IText where
  tname : String
  tlabel : String
  text : String
  deriving DecidableEq, Repr

/-- Text vector property, `ITextVectorProperty` in the source. -/
structure ITextVectorProperty where
  device : String
  vname : String
  vlabel : String
  p : IPerm
  s : IPState
  tp : List IText
  deriving DecidableEq, Repr

/-- BLOB member, `IBLOB` in the source; the decoded byte buffer is
    modelled as a `String` (its contents come from the out-of-scope
    base64 codec). -/
structure IBLOB where
  bname : String
  blabel : String
  format : String
  blob : String
  bloblen : Nat
  size : Nat
  deriving DecidableEq, Repr

/-- BLOB vector property, `IBLOBVectorProperty` in the source. -/
structure IBLOBVectorProperty where
  device : String
  vname : String
  vlabel : String
  p : IPerm
  s : IPState
  bp : List IBLOB
  deriving DecidableEq, Repr

/-- Modelled from the spec: `IUFindSwitch` (repository code outside the
    given source file) returns the first member with the given name. -/
def IUFindSwitch (sps : List ISwitch) (nm : String) : Option ISwitch :=
  sps.find? (fun sp => sp.sname == nm)

/-- Modelled from the spec: `IUFindNumber` returns the first member with
    the given name. -/
def IUFindNumber (nps : List INumber) (nm : String) : Option INumber :=
  nps.find? (fun np => np.nname == nm)

/-- Modelled from the spec: `IUFindText` returns the first member with
    the given name. -/
def IUFindText (tps : List IText) (nm : String) : Option IText :=
  tps.find? (fun tp => tp.tname == nm)

/-- Modelled from the spec: `IUFindBLOB` returns the first member with
    the given name. -/
def IUFindBLOB (bps : List IBLOB) (nm : String) : Option IBLOB :=
  bps.find? (fun bp => bp.bname == nm)

/-- Modelled from the spec: `IUResetSwitch` turns every member Off. -/
def IUResetSwitch (sps : List ISwitch) : List ISwitch :=
  sps.map (fun sp => { sp with s := .ISS_OFF })

/-- Write through the pointer returned by `IUFindSwitch`: set the state of
    the first member with the given name, leaving everything else alone. -/
def setFirstSwitch : List ISwitch → String → ISState → List ISwitch
  | [], _, _ => []
  | sp :: rest, nm, st =>
      if sp.sname == nm then { sp with s := st } :: rest
      else sp :: setFirstSwitch rest nm st

/-- Write through the pointer returned by `IUFindNumber`: set the value of
    the first member with the given name. -/
def setFirstNumber : List INumber → String → Rat → List INumber
  | [], _, _ => []
  | np :: rest, nm, v =>
      if np.nname == nm then { np with value := v } :: rest
      else np :: setFirstNumber rest nm v

/-- Modelled from the spec: `IUSaveText` frees the old per-member storage
    and duplicates the new string; applied to the first member with the
    given name (the pointer `IUFindText` returned). -/
def setFirstText : List IText → String → String → List IText
  | [], _, _ => []
  | tp :: rest, nm, t =>
      if tp.tname == nm then { tp with text := t } :: rest
      else tp :: setFirstText rest nm t

/-- Payload of one `oneBLOB` entry handed to `IUUpdateBLOB`. -/
structure BlobPair where
  pname : String
  format : String
  blob : String
  bloblen : Nat
  size : Nat
  deriving DecidableEq, Repr

/-- Modelled from the spec: `IUSaveBLOB` frees the old buffer and takes
    ownership of the new bytes; applied to the first member with the given
    name. -/
def setFirstBLOB : List IBLOB → BlobPair → List IBLOB
  | [], _ => []
  | bp :: rest, pr =>
      if bp.bname == pr.pname then
        { bp with size := pr.size, bloblen := pr.bloblen, blob := pr.blob,
                  format := pr.format } :: rest
      else bp :: setFirstBLOB rest pr

/-- Render a rational for the human-readable applicator messages (the C
    uses printf `%g`; the exact rendering is display-only). -/
def ratStr (q : Rat) : String :=
  if q.den == 1 then toString q.num else toString q.num ++ "/" ++ toString q.den

/-- Result of a value applicator: return code, the vector after the call
    (the C mutates it in place) and the messages emitted through
    `IDSet<Kind>` during the call. -/
structure SwitchUpdateResult where
  code : Int
  svp : ISwitchVectorProperty
  msgs : List String
  deriving DecidableEq, Repr

/-- Result of `IUUpdateNumber`. -/
structure NumberUpdateResult where
  code : Int
  nvp : INumberVectorProperty
  msgs : List String
  deriving DecidableEq, Repr

/-- Result of `IUUpdateText`. -/
structure TextUpdateResult where
  code : Int
  tvp : ITextVectorProperty
  msgs : List String
  deriving DecidableEq, Repr

/-- Result of `IUUpdateBLOB`. -/
structure BlobUpdateResult where
  code : Int
  bvp : IBLOBVectorProperty
  msgs : List String
  deriving DecidableEq, Repr

/-- Outcome of the per-pair loop of `IUUpdateSwitch`: either every name
    resolved (carrying the mutated member list) or the loop stopped at the
    first unresolvable name, the already-applied writes kept. -/
inductive SwitchLoopOut where
  | ok (sps : List ISwitch)
  | missing (badName : String) (sps : List ISwitch)
  deriving DecidableEq, Repr

/-- Per-pair loop of `IUUpdateSwitch`: look the name up, write the state
    through the returned pointer, stop at the first missing name. -/
def switchLoop : List ISwitch → List (String × ISState) → SwitchLoopOut
  | sps, [] => .ok sps
  | sps, (nm, st) :: rest =>
      match IUFindSwitch sps nm with
      | none => .missing nm sps
      | some _ => switchLoop (setFirstSwitch sps nm st) rest

/-- Count of members currently On. -/
def onCount (sps : List ISwitch) : Nat :=
  (sps.filter (fun sp => sp.s == .ISS_ON)).length

/-- Index of the first member that is On, the pointer `IUFindOnSwitch`
    stores before the reset (modelled from the spec: `IUFindOnSwitch` is
    repository code outside the given source file). -/
def firstOnIdx (sps : List ISwitch) : Option Nat :=
  sps.findIdx? (fun sp => sp.s == .ISS_ON)

/-- Turn the member at the given position On (the restore write through
    the saved pointer). -/
def setSwitchIdx : List ISwitch → Nat → List ISwitch
  | [], _ => []
  | sp :: rest, 0 => { sp with s := .ISS_ON } :: rest
  | sp :: rest, i + 1 => sp :: setSwitchIdx rest i

/-- Update property switches in accord with states and names,
    `IUUpdateSwitch` in the source: for `ISR_1OFMANY` remember the first
    member that is On and reset all members, then write each pair through
    `IUFindSwitch`, failing at the first unresolvable name (state Idle, no
    restore); afterwards, for `ISR_1OFMANY`, verify exactly one member is
    On and otherwise reset, restore the remembered member, set state Idle
    and fail. -/
def IUUpdateSwitch (svp : ISwitchVectorProperty) (pairs : List (String × ISState)) :
    SwitchUpdateResult :=
  let so := if svp.r == .ISR_1OFMANY then firstOnIdx svp.sp else none
  let sps0 := if svp.r == .ISR_1OFMANY then IUResetSwitch svp.sp else svp.sp
  match switchLoop sps0 pairs with
  | .missing nm sps1 =>
      { code := -1,
        svp := { svp with s := .IPS_IDLE, sp := sps1 },
        msgs := ["Error: " ++ nm ++ " is not a member of " ++ svp.vlabel ++ " (" ++
                  svp.vname ++ ") property."] }
  | .ok sps1 =>
      if svp.r == .ISR_1OFMANY then
        let t_count := onCount sps1
        if t_count != 1 then
          let restored :=
            match so with
            | some i => setSwitchIdx (IUResetSwitch sps1) i
            | none => IUResetSwitch sps1
          { code := -1,
            svp := { svp with s := .IPS_IDLE, sp := restored },
            msgs := ["Error: invalid state switch for property " ++ svp.vlabel ++
                      " (" ++ svp.vname ++ "). " ++
                      (if t_count == 0 then "No switch is on" else "Too many switches are on")
                      ++ "."] }
        else { code := 0, svp := { svp with sp := sps1 }, msgs := [] }
      else { code := 0, svp := { svp with sp := sps1 }, msgs := [] }

/-- Outcome of the validation loop of `IUUpdateNumber`: every pair passed,
    or the first failure (missing name, or a value out of range together
    with the offending member). -/
inductive NumberCheckOut where
  | ok
  | missing (badName : String)
  | range (np : INumber) (v : Rat)
  deriving Repr

/-- Validation loop of `IUUpdateNumber` (first loop of the source): stop
    at the first missing name or out-of-range value. -/
def numberCheckLoop (nps : List INumber) : List (String × Rat) → NumberCheckOut
  | [] => .ok
  | (nm, v) :: rest =>
      match IUFindNumber nps nm with
      | none => .missing nm
      | some np =>
          if v < np.min ∨ v > np.max then .range np v
          else numberCheckLoop nps rest

/-- Mutation loop of `IUUpdateNumber` (second loop of the source): write
    every value through the pointer `IUFindNumber` returns. -/
def applyNumberPairs (nps : List INumber) (pairs : List (String × Rat)) : List INumber :=
  pairs.foldl (fun acc p => setFirstNumber acc p.1 p.2) nps

/-- Update property numbers in accord with values and names,
    `IUUpdateNumber` in the source: first loop checks every name and
    range, second loop sets all values atomically. -/
def IUUpdateNumber (nvp : INumberVectorProperty) (pairs : List (String × Rat)) :
    NumberUpdateResult :=
  match numberCheckLoop nvp.np pairs with
  | .missing nm =>
      { code := -1,
        nvp := { nvp with s := .IPS_IDLE },
        msgs := ["Error: " ++ nm ++ " is not a member of " ++ nvp.vlabel ++ " (" ++
                  nvp.vname ++ ") property."] }
  | .range np v =>
      { code := -1,
        nvp := { nvp with s := .IPS_ALERT },
        msgs := ["Error: Invalid range for " ++ np.nlabel ++ " (" ++ np.nname ++
                  "). Valid range is from " ++ ratStr np.min ++ " to " ++ ratStr np.max ++
                  ". Requested value is " ++ ratStr v] }
  | .ok => { code := 0, nvp := { nvp with np := applyNumberPairs nvp.np pairs }, msgs := [] }

/-- Validation loop of `IUUpdateText`: stop at the first missing name. -/
def textCheckLoop (tps : List IText) : List (String × String) → Option String
  | [] => none
  | (nm, _) :: rest =>
      match IUFindText tps nm with
      | none => some nm
      | some _ => textCheckLoop tps rest

/-- Mutation loop of `IUUpdateText`: save every text through the pointer
    `IUFindText` returns. -/
def applyTextPairs (tps : List IText) (pairs : List (String × String)) : List IText :=
  pairs.foldl (fun acc p => setFirstText acc p.1 p.2) tps

/-- Update property texts in accord with texts and names, `IUUpdateText`
    in the source: first loop checks every name, second loop saves all
    values atomically. -/
def IUUpdateText (tvp : ITextVectorProperty) (pairs : List (String × String)) :
    TextUpdateResult :=
  match textCheckLoop tvp.tp pairs with
  | some nm =>
      { code := -1,
        tvp := { tvp with s := .IPS_IDLE },
        msgs := ["Error: " ++ nm ++ " is not a member of " ++ tvp.vlabel ++ " (" ++
                  tvp.vname ++ ") property."] }
  | none => { code := 0, tvp := { tvp with tp := applyTextPairs tvp.tp pairs }, msgs := [] }

/-- Validation loop of `IUUpdateBLOB`: stop at the first missing name. -/
def blobCheckLoop (bps : List IBLOB) : List BlobPair → Option String
  | [] => none
  | pr :: rest =>
      match IUFindBLOB bps pr.pname with
      | none => some pr.pname
      | some _ => blobCheckLoop bps rest

/-- Mutation loop of `IUUpdateBLOB`: save every payload through the
    pointer `IUFindBLOB` returns. -/
def applyBlobPairs (bps : List IBLOB) (pairs : List BlobPair) : List IBLOB :=
  pairs.foldl (fun acc pr => setFirstBLOB acc pr) bps

/-- Update property BLOBs in accord with payloads and names,
    `IUUpdateBLOB` in the source: first loop checks every name, second
    loop saves all payloads atomically. -/
def IUUpdateBLOB (bvp : IBLOBVectorProperty) (pairs : List BlobPair) :
    BlobUpdateResult :=
  match blobCheckLoop bvp.bp pairs with
  | some nm =>
      { code := -1,
        bvp := { bvp with s := .IPS_IDLE },
        msgs := ["Error: " ++ nm ++ " is not a member of " ++ bvp.vlabel ++ " (" ++
                  bvp.vname ++ ") property."] }
  | none => { code := 0, bvp := { bvp with bp := applyBlobPairs bvp.bp pairs }, msgs := [] }

/-- One `oneBLOB` entry as handed to `ISNewBLOB` by the dispatcher: names
    and attributes plus `cap`, the capacity `3 * bloblen / 4` of the
    freshly malloc-ed decode buffer (the decoded bytes themselves come
    from the out-of-scope base64 codec). -/
structure BlobItem where
  iname : String
  format : String
  size : Nat
  cap : Nat
  deriving DecidableEq, Repr

/-- Observable effect of one `dispatch` call: a driver callback invocation
    (`IS*` entry point) or an outbound emission (`IDMessage`,
    `IDDef<Kind>`). -/
inductive Event where
  | isGetProperties (dev : Option String)
  | isSnoopDevice (root : XMLEle)
  | isNewNumber (dev nm : String) (pairs : List (String × Rat))
  | isNewSwitch (dev nm : String) (pairs : List (String × ISState))
  | isNewText (dev nm : String) (pairs : List (String × String))
  | isNewBLOB (dev nm : String) (items : List BlobItem)
  | idMessage (dev : String) (msg : String)
  | idDefNumber (dev nm : String)
  | idDefSwitch (dev nm : String)
  | idDefText (dev nm : String)
  | idDefBLOB (dev nm : String)

/-- Outcome of `dispatch`: a return code with the error buffer content and
    the ordered effects, or a fatal process exit (`exit(1)`) with the
    stderr diagnostic. -/
inductive DispatchResult where
  | ret (code : Int) (msg : Option String) (events : List Event)
  | fatal (code : Nat) (stderr : String)

/-- Executable name, `me` in the source (initialised to the empty string
    in this translation unit; `main` elsewhere overwrites it). -/
def me : String := ""

/-- Modelled from the spec: the protocol version constant `INDIV`
    (defined in a header outside the given source file), 1.7 per the
    spec's scenarios, held as the unreduced fraction 17/10. -/
def INDIVnum : Int := 17

/-- Denominator of the modelled `INDIV`. -/
def INDIVden : Nat := 10

/-- Version test `atof(value) > INDIV` of the `getProperties` branch,
    performed on the unreduced parsed fraction with kernel-reducible
    integer arithmetic. -/
def versionExceedsINDIV (s : String) : Bool :=
  let (n, d) := atofParts s
  INDIVnum * (d : Int) < n * (INDIVden : Int)

/-- Modelled from the spec: `crackDN` (repository code outside the given
    source file) extracts the mandatory `device` and `name` attributes,
    failing when either is absent; its exact failure message is not part
    of any claim. -/
def crackDN (root : XMLEle) : Except String (String × String) :=
  match findXMLAtt root "device", findXMLAtt root "name" with
  | some d, some n => .ok (d.avalue, n.avalue)
  | _, _ => .error ("cannot find device or name attributes in " ++ root.tag)

/-- Classification of the root tag into the three groups the source
    checks first: `getProperties`, the twelve snoop-feed tags, and
    everything else. -/
inductive RootClass where
  | getProp
  | snoop
  | other
  deriving DecidableEq, Repr

/-- The twelve snoop-feed tags forwarded to `ISSnoopDevice`. -/
def snoopTags : List String :=
  ["setNumberVector", "setTextVector", "setLightVector", "setSwitchVector",
   "setBLOBVector", "defNumberVector", "defTextVector", "defLightVector",
   "defSwitchVector", "defBLOBVector", "message", "delProperty"]

/-- Classify the root tag as the source's first two strcmp cascades do. -/
def rootClass (t : String) : RootClass :=
  if t == "getProperties" then .getProp
  else if snoopTags.contains t then .snoop
  else .other

/-- Classification of the remaining tags into the four `new<Kind>Vector`
    commands and the unknown-command fallthrough. -/
inductive NewClass where
  | num
  | sw
  | txt
  | blob
  | other
  deriving DecidableEq, Repr

/-- Classify a non-getProperties, non-snoop tag as the source's last
    strcmp cascade does. -/
def newClass (t : String) : NewClass :=
  if t == "newNumberVector" then .num
  else if t == "newSwitchVector" then .sw
  else if t == "newTextVector" then .txt
  else if t == "newBLOBVector" then .blob
  else .other

/-- The `getProperties` branch of `dispatch`: version sanity (fatal on a
    missing or too-new version), then, when both `device` and `name` are
    present and cached, re-emission of the matching `IDDef<Kind>`;
    otherwise `ISGetProperties` — except that a present-but-uncached
    (device, name) pair returns 0 silently. -/
def dispatchGetProp (reg : List ROSC) (root : XMLEle) : DispatchResult :=
  match findXMLAtt root "version" with
  | none => .fatal 1 (me ++ ": getProperties missing version\n")
  | some ap =>
      if versionExceedsINDIV ap.avalue then
        .fatal 1 (me ++ ": client version " ++ ap.avalue ++ " > 1.7\n")
      else
        let dev := findXMLAtt root "device"
        let nm := findXMLAtt root "name"
        match nm, dev with
        | some nmAtt, some devAtt =>
            (match rosc_find reg nmAtt.avalue devAtt.avalue with
             | none => .ret 0 none []
             | some prop =>
                 match prop.ptype with
                 | .INDI_NUMBER => .ret 0 none [.idDefNumber prop.devName prop.propName]
                 | .INDI_SWITCH => .ret 0 none [.idDefSwitch prop.devName prop.propName]
                 | .INDI_TEXT => .ret 0 none [.idDefText prop.devName prop.propName]
                 | .INDI_BLOB => .ret 0 none [.idDefBLOB prop.devName prop.propName]
                 | _ => .ret 0 none [])
        | _, _ => .ret 0 none [.isGetProperties (dev.map (fun a => a.avalue))]

/-- Scan of the `oneNumber` children of a `newNumberVector`: children with
    a `name` attribute whose body parses contribute a (name, value) pair;
    a body `f_scansexa` rejects emits a Bad-format `IDMessage` and is
    skipped. -/
def scanNumbers (dev nm : String) : List XMLEle → List (String × Rat) × List Event
  | [] => ([], [])
  | ep :: rest =>
      if ep.tag == "oneNumber" then
        match findXMLAtt ep "name" with
        | some na =>
            (match f_scansexa ep.pcdata with
             | none =>
                 let (ps, ms) := scanNumbers dev nm rest
                 (ps, .idMessage dev ("[ERROR] " ++ nm ++ ": Bad format " ++ ep.pcdata) :: ms)
             | some v =>
                 let (ps, ms) := scanNumbers dev nm rest
                 ((na.avalue, v) :: ps, ms))
        | none => scanNumbers dev nm rest
      else scanNumbers dev nm rest

/-- Scan of the `oneSwitch` children: a body with prefix `On` maps to
    `ISS_ON`, the exact body `Off` to `ISS_OFF`, anything else emits a
    must-be-On-or-Off `IDMessage` and is skipped. -/
def scanSwitches (dev nm : String) : List XMLEle → List (String × ISState) × List Event
  | [] => ([], [])
  | ep :: rest =>
      if ep.tag == "oneSwitch" then
        match findXMLAtt ep "name" with
        | some na =>
            if ep.pcdata.startsWith "On" then
              let (ps, ms) := scanSwitches dev nm rest
              ((na.avalue, .ISS_ON) :: ps, ms)
            else if ep.pcdata == "Off" then
              let (ps, ms) := scanSwitches dev nm rest
              ((na.avalue, .ISS_OFF) :: ps, ms)
            else
              let (ps, ms) := scanSwitches dev nm rest
              (ps, .idMessage dev ("[ERROR] " ++ nm ++ ": must be On or Off: " ++ ep.pcdata) :: ms)
        | none => scanSwitches dev nm rest
      else scanSwitches dev nm rest

/-- Scan of the `oneText` children: every child with a `name` attribute
    contributes its body verbatim. -/
def scanTexts : List XMLEle → List (String × String)
  | [] => []
  | ep :: rest =>
      if ep.tag == "oneText" then
        match findXMLAtt ep "name" with
        | some na => (na.avalue, ep.pcdata) :: scanTexts rest
        | none => scanTexts rest
      else scanTexts rest

/-- Encoded length the source uses for one `oneBLOB` child: the `enclen`
    attribute when present, the body length otherwise (base64 bodies are
    ASCII, so character count equals byte count). -/
def blobEncLen (ep : XMLEle) : Nat :=
  match findXMLAtt ep "enclen" with
  | some el => atoiN el.avalue
  | none => ep.pcdata.length

/-- Whether a `oneBLOB` child carries the three mandatory attributes. -/
def blobChildValid (ep : XMLEle) : Bool :=
  ep.tag == "oneBLOB" && (findXMLAtt ep "name").isSome &&
    (findXMLAtt ep "format").isSome && (findXMLAtt ep "size").isSome

/-- Scan of the `oneBLOB` children: children with `name`, `format` and
    `size` attributes are decoded into a buffer of capacity
    `3 * bloblen / 4` (C integer division). -/
def scanBlobs : List XMLEle → List BlobItem
  | [] => []
  | ep :: rest =>
      if ep.tag == "oneBLOB" then
        match findXMLAtt ep "name", findXMLAtt ep "format", findXMLAtt ep "size" with
        | some na, some fa, some sa =>
            { iname := na.avalue, format := fa.avalue, size := atoiN sa.avalue,
              cap := 3 * blobEncLen ep / 4 } :: scanBlobs rest
        | _, _, _ => scanBlobs rest
      else scanBlobs rest

/-- The `newNumberVector` branch of `dispatch`: collect the valid pairs,
    invoke `ISNewNumber` when at least one survived, otherwise emit the
    no-valid-members `IDMessage`. -/
def dispatchNewNumber (root : XMLEle) (dev nm : String) : DispatchResult :=
  let (ps, ms) := scanNumbers dev nm root.children
  if ps.isEmpty then
    .ret 0 none (ms ++ [.idMessage dev ("[ERROR] " ++ nm ++ ": newNumberVector with no valid members")])
  else
    .ret 0 none (ms ++ [.isNewNumber dev nm ps])

/-- The `newSwitchVector` branch of `dispatch`. -/
def dispatchNewSwitch (root : XMLEle) (dev nm : String) : DispatchResult :=
  let (ps, ms) := scanSwitches dev nm root.children
  if ps.isEmpty then
    .ret 0 none (ms ++ [.idMessage dev ("[ERROR] " ++ nm ++ ": newSwitchVector with no valid members")])
  else
    .ret 0 none (ms ++ [.isNewSwitch dev nm ps])

/-- The `newTextVector` branch of `dispatch` (its empty-batch message says
    `set with no valid members` in the source). -/
def dispatchNewText (root : XMLEle) (dev nm : String) : DispatchResult :=
  let ps := scanTexts root.children
  if ps.isEmpty then
    .ret 0 none [.idMessage dev ("[ERROR] " ++ nm ++ ": set with no valid members")]
  else
    .ret 0 none [.isNewText dev nm ps]

/-- The `newBLOBVector` branch of `dispatch`. -/
def dispatchNewBLOB (root : XMLEle) (dev nm : String) : DispatchResult :=
  let items := scanBlobs root.children
  if items.isEmpty then
    .ret 0 none [.idMessage dev ("[ERROR] " ++ nm ++ ": newBLOBVector with no valid members")]
  else
    .ret 0 none [.isNewBLOB dev nm items]

/-- Crack one inbound INDI XML element, `dispatch` in the source: handle
    `getProperties`, forward the snoop feed, then for everything else
    extract (device, name), reject uncached pairs (`Property ... is not
    defined ...`), reject read-only targets (`Cannot set read-only
    property ...`), handle the four `new<Kind>Vector` commands and fall
    through to the soft `Unknown command` code 1. -/
def dispatch (reg : List ROSC) (root : XMLEle) : DispatchResult :=
  match rootClass root.tag with
  | .getProp => dispatchGetProp reg root
  | .snoop => .ret 0 none [.isSnoopDevice root]
  | .other =>
      match crackDN root with
      | .error m => .ret (-1) (some m) []
      | .ok (dev, nm) =>
          match rosc_find reg nm dev with
          | none => .ret (-1) (some ("Property " ++ nm ++ " is not defined in " ++ dev ++ ".")) []
          | some prop =>
              if prop.perm == .IP_RO then
                .ret (-1) (some ("Cannot set read-only property " ++ nm)) []
              else
                match newClass root.tag with
                | .num => dispatchNewNumber root dev nm
                | .sw => dispatchNewSwitch root dev nm
                | .txt => dispatchNewText root dev nm
                | .blob => dispatchNewBLOB root dev nm
                | .other => .ret 1 (some ("Unknown command: " ++ root.tag)) []

/-- Observable step of the BLOB flow controller in `IDSetBLOBVA`. -/
inductive BlobEvent where
  | waitReply (uid : String)
  | setBLOBVector
  | pingRequest (uid : String)
  deriving DecidableEq, Repr

/-- Ping id string, `BLOB_PING_PATTERN` in the source. -/
def blobPingTag (uid : Nat) : String :=
  "SetBLOB/" ++ toString uid

/-- BLOB emission step, `IDSetBLOBVA` in the source, as a function of the
    process-wide counter `lastBlobPingUid`: wait for the acknowledgement
    of the previous ping when one is outstanding, emit the
    `setBLOBVector`, bump the counter once and emit the new
    `pingRequest`; returns the events in order and the new counter. -/
def IDSetBLOBStep (lastBlobPingUid : Nat) : List BlobEvent × Nat :=
  ((if lastBlobPingUid ≠ 0 then [BlobEvent.waitReply (blobPingTag lastBlobPingUid)] else []) ++
    [BlobEvent.setBLOBVector, BlobEvent.pingRequest (blobPingTag (lastBlobPingUid + 1))],
   lastBlobPingUid + 1)

/-- Event stream of `n` consecutive `IDSetBLOB` calls starting from the
    initial counter 0 (the counter after `k` calls is `k`). -/
def blobTrace : Nat → List BlobEvent
  | 0 => []
  | n + 1 => blobTrace n ++ (IDSetBLOBStep n).1

/-- Number of `pingRequest` emissions in a stream. -/
def pingRequests (evs : List BlobEvent) : Nat :=
  (evs.filter (fun e => match e with | .pingRequest _ => true | _ => false)).length

/-- Number of completed waits in a stream; each completed wait consumed
    one acknowledgement (`pingReply`) of an earlier request. -/
def pingWaits (evs : List BlobEvent) : Nat :=
  (evs.filter (fun e => match e with | .waitReply _ => true | _ => false)).length

/-- Pings still unacknowledged after a stream prefix: requests emitted
    minus acknowledgements consumed by completed waits. -/
def pendingPings (evs : List BlobEvent) : Int :=
  (pingRequests evs : Int) - (pingWaits evs : Int)

/-- C1: for every inbound `newNumberVector` / `newSwitchVector` /
    `newTextVector` / `newBLOBVector` element whose (device, name) is
    cached with permission `IP_RO`, `dispatch` returns -1 with the message
    `Cannot set read-only property <name>` in the error buffer and records
    no effect at all — in particular no driver callback (`ISNewNumber`,
    `ISNewSwitch`, `ISNewText`, `ISNewBLOB`) is invoked. -/
theorem dispatch_readonly_rejected (reg : List ROSC) (root : XMLEle) (dev nm : String)
    (prop : ROSC)
    (htag : root.tag = "newNumberVector" ∨ root.tag = "newSwitchVector" ∨
      root.tag = "newTextVector" ∨ root.tag = "newBLOBVector")
    (hcrack : crackDN root = .ok (dev, nm))
    (hfind : rosc_find reg nm dev = some prop)
    (hperm : prop.perm = .IP_RO) :
    dispatch reg root = .ret (-1) (some ("Cannot set read-only property " ++ nm)) [] := by
  have hclass : rootClass root.tag = .other := by
    rcases htag with h | h | h | h <;> rw [h] <;> decide
  simp only [dispatch, hclass, hcrack, hfind, hperm, beq_self_eq_true, if_pos]

/-- C2: for every inbound `new<Kind>Vector` element whose (device, name)
    pair is not in the property cache, `dispatch` returns -1 with exactly
    the message `Property <name> is not defined in <device>.` and records
    no effect, so no driver callback is invoked. -/
theorem dispatch_undefined_rejected (reg : List ROSC) (root : XMLEle) (dev nm : String)
    (htag : root.tag = "newNumberVector" ∨ root.tag = "newSwitchVector" ∨
      root.tag = "newTextVector" ∨ root.tag = "newBLOBVector")
    (hcrack : crackDN root = .ok (dev, nm))
    (hfind : rosc_find reg nm dev = none) :
    dispatch reg root =
      .ret (-1) (some ("Property " ++ nm ++ " is not defined in " ++ dev ++ ".")) [] := by
  have hclass : rootClass root.tag = .other := by
    rcases htag with h | h | h | h <;> rw [h] <;> decide
  simp only [dispatch, hclass, hcrack, hfind]

/-- C8 (amended): an element whose tag is not `getProperties`, not a
    snoop-feed tag and not a `new<Kind>Vector` reaches the soft
    `Unknown command: <tag>` failure (return code 1) only after the
    device/name extraction, the cached-pair check and the read-only check
    all pass; elements failing those earlier checks get those errors
    instead (see the counterexample). -/
theorem unknown_command_gated (reg : List ROSC) (root : XMLEle) (dev nm : String)
    (prop : ROSC)
    (hroot : rootClass root.tag = .other)
    (hnew : newClass root.tag = .other)
    (hcrack : crackDN root = .ok (dev, nm))
    (hfind : rosc_find reg nm dev = some prop)
    (hperm : prop.perm ≠ .IP_RO) :
    dispatch reg root = .ret 1 (some ("Unknown command: " ++ root.tag)) [] := by
  have hb : (prop.perm == IPerm.IP_RO) = false := beq_eq_false_iff_ne.mpr hperm
  simp only [dispatch, hroot, hnew, hcrack, hfind, hb, Bool.false_eq_true, if_false]

def rootC8 : XMLEle := .mk "fooBar" [⟨"device", "D"⟩, ⟨"name", "N"⟩] [] ""

/-- C8 counterexample: the unknown tag `fooBar` with an unregistered
    (device, name) pair is rejected with
    `Property N is not defined in D.` and -1, not with
    `Unknown command: fooBar` as the claim states for every unknown
    tag. -/
theorem unknown_command_cex :
    rootClass "fooBar" = .other ∧ newClass "fooBar" = .other ∧
    dispatch [] rootC8 = .ret (-1) (some "Property N is not defined in D.") [] :=
  ⟨by decide, by decide, rfl⟩

def regC8w : List ROSC := [⟨"N", "D", .IP_RW, .INDI_TEXT⟩]

/-- C8 witness: with the pair (`D`, `N`) cached read-write, the unknown
    tag `fooBar` yields the soft code 1 and the exact
    `Unknown command` message. -/
theorem unknown_command_gated_witness :
    dispatch regC8w rootC8 = .ret 1 (some "Unknown command: fooBar") [] :=
  unknown_command_gated regC8w rootC8 "D" "N" ⟨"N", "D", .IP_RW, .INDI_TEXT⟩
    (by decide) (by decide) rfl rfl (by decide)

/-- C10: every inbound `getProperties` element carrying no `version`
    attribute makes `dispatch` terminate the driver fatally with exit
    code 1 and a stderr diagnostic containing
    `getProperties missing version` — the same fatal outcome as an
    incompatible version, not a soft reject. -/
theorem missing_version_fatal (reg : List ROSC) (root : XMLEle)
    (htag : root.tag = "getProperties")
    (hver : findXMLAtt root "version" = none) :
    dispatch reg root = .fatal 1 (me ++ ": getProperties missing version\n") ∧
    ∃ a b, me ++ ": getProperties missing version\n" =
      a ++ "getProperties missing version" ++ b := by
  have hclass : rootClass root.tag = .getProp := by rw [htag]; decide
  refine ⟨?_, ⟨me ++ ": ", "\n", by decide⟩⟩
  simp only [dispatch, hclass, dispatchGetProp, hver]

/-- C10 witness: a bare `getProperties` with no attributes exits
    fatally. -/
theorem missing_version_fatal_witness :
    dispatch [] (.mk "getProperties" [] [] "") =
      .fatal 1 (me ++ ": getProperties missing version\n") ∧
    ∃ a b, me ++ ": getProperties missing version\n" =
      a ++ "getProperties missing version" ++ b :=
  missing_version_fatal [] (.mk "getProperties" [] [] "") rfl rfl

def rootC1 : XMLEle := .mk "newTextVector" [⟨"device", "Cam"⟩, ⟨"name", "DRIVER_INFO"⟩]
  [.mk "oneText" [⟨"name", "VERSION"⟩] [] "evil"] ""

def regC1 : List ROSC := [⟨"DRIVER_INFO", "Cam", .IP_RO, .INDI_TEXT⟩]

/-- C1 witness: the read-only text property `DRIVER_INFO` of device `Cam`
    rejects a concrete `newTextVector`. -/
theorem dispatch_readonly_rejected_witness :
    dispatch regC1 rootC1 =
      .ret (-1) (some "Cannot set read-only property DRIVER_INFO") [] :=
  dispatch_readonly_rejected regC1 rootC1 "Cam" "DRIVER_INFO"
    ⟨"DRIVER_INFO", "Cam", .IP_RO, .INDI_TEXT⟩
    (Or.inr (Or.inr (Or.inl rfl))) rfl rfl rfl

def rootC2 : XMLEle := .mk "newNumberVector" [⟨"device", "CCD"⟩, ⟨"name", "EXPOSURE"⟩]
  [.mk "oneNumber" [⟨"name", "EXP"⟩] [] "5"] ""

/-- C2 witness: a `newNumberVector` for the unregistered pair
    (`CCD`, `EXPOSURE`) is rejected with the exact message. -/
theorem dispatch_undefined_rejected_witness :
    dispatch [] rootC2 =
      .ret (-1) (some "Property EXPOSURE is not defined in CCD.") [] :=
  dispatch_undefined_rejected [] rootC2 "CCD" "EXPOSURE" (Or.inl rfl) rfl rfl

/-- C7 (amended): for an inbound `getProperties` with a compatible
    version, when both `device` and `name` attributes are present and the
    pair is cached, `dispatch` re-emits exactly the matching `IDDef<Kind>`
    for that one property and returns 0; when both are present but the
    pair is not cached it returns 0 silently — `ISGetProperties` is NOT
    invoked (see the counterexample); `ISGetProperties(device?)` is
    invoked only when the `device` or `name` attribute is absent. -/
theorem getproperties_dispatch (reg : List ROSC) (root : XMLEle) (ap : XMLAtt)
    (htag : root.tag = "getProperties")
    (hver : findXMLAtt root "version" = some ap)
    (hcompat : versionExceedsINDIV ap.avalue = false) :
    (∀ devAtt nmAtt prop,
      findXMLAtt root "device" = some devAtt →
      findXMLAtt root "name" = some nmAtt →
      rosc_find reg nmAtt.avalue devAtt.avalue = some prop →
      dispatch reg root = .ret 0 none
        (match prop.ptype with
         | .INDI_NUMBER => [Event.idDefNumber prop.devName prop.propName]
         | .INDI_SWITCH => [Event.idDefSwitch prop.devName prop.propName]
         | .INDI_TEXT => [Event.idDefText prop.devName prop.propName]
         | .INDI_BLOB => [Event.idDefBLOB prop.devName prop.propName]
         | _ => [])) ∧
    (∀ devAtt nmAtt,
      findXMLAtt root "device" = some devAtt →
      findXMLAtt root "name" = some nmAtt →
      rosc_find reg nmAtt.avalue devAtt.avalue = none →
      dispatch reg root = .ret 0 none []) ∧
    (findXMLAtt root "name" = none ∨ findXMLAtt root "device" = none →
      dispatch reg root = .ret 0 none
        [Event.isGetProperties ((findXMLAtt root "device").map (fun a => a.avalue))]) := by
  have hclass : rootClass root.tag = .getProp := by rw [htag]; decide
  refine ⟨?_, ?_, ?_⟩
  · intro devAtt nmAtt prop hdev hnm hfind
    simp only [dispatch, hclass, dispatchGetProp, hver, hcompat, Bool.false_eq_true, if_false,
      hdev, hnm, hfind]
    cases prop.ptype <;> rfl
  · intro devAtt nmAtt hdev hnm hfind
    simp only [dispatch, hclass, dispatchGetProp, hver, hcompat, Bool.false_eq_true, if_false,
      hdev, hnm, hfind]
  · intro h
    rcases h with h | h
    · simp only [dispatch, hclass, dispatchGetProp, hver, hcompat, Bool.false_eq_true, if_false, h]
    · simp only [dispatch, hclass, dispatchGetProp, hver, hcompat, Bool.false_eq_true, if_false, h]
      rcases hnm : findXMLAtt root "name" with _ | nmAtt <;> simp only []

def rootC7 : XMLEle :=
  .mk "getProperties" [⟨"version", "1.7"⟩, ⟨"device", "D"⟩, ⟨"name", "N"⟩] [] ""

/-- C7 counterexample: a compatible `getProperties` carrying both
    `device="D"` and `name="N"` against an empty cache returns 0 with no
    effects at all — the claim's `otherwise invoke ISGetProperties`
    branch does not fire. -/
theorem getproperties_silent_cex :
    findXMLAtt rootC7 "device" = some ⟨"device", "D"⟩ ∧
    findXMLAtt rootC7 "name" = some ⟨"name", "N"⟩ ∧
    versionExceedsINDIV "1.7" = false ∧
    rosc_find [] "N" "D" = none ∧
    dispatch [] rootC7 = .ret 0 none [] :=
  ⟨rfl, rfl, by decide, rfl, rfl⟩

def regC7w : List ROSC := [⟨"CONNECTION", "Mount", .IP_RW, .INDI_SWITCH⟩]

def rootC7w : XMLEle :=
  .mk "getProperties" [⟨"version", "1.7"⟩, ⟨"device", "Mount"⟩, ⟨"name", "CONNECTION"⟩] [] ""

/-- C7 witness: a late-joiner `getProperties` for the cached switch
    property (`Mount`, `CONNECTION`) re-emits exactly one
    `IDDefSwitch`. -/
theorem getproperties_dispatch_witness :
    dispatch regC7w rootC7w = .ret 0 none [Event.idDefSwitch "Mount" "CONNECTION"] :=
  (getproperties_dispatch regC7w rootC7w ⟨"version", "1.7"⟩ rfl rfl (by decide)).1
    ⟨"device", "Mount"⟩ ⟨"name", "CONNECTION"⟩ ⟨"CONNECTION", "Mount", .IP_RW, .INDI_SWITCH⟩
    rfl rfl rfl

def blobItemOf (ep : XMLEle) : BlobItem :=
  match findXMLAtt ep "name", findXMLAtt ep "format", findXMLAtt ep "size" with
  | some na, some fa, some sa =>
      { iname := na.avalue, format := fa.avalue, size := atoiN sa.avalue,
        cap := 3 * blobEncLen ep / 4 }
  | _, _, _ => { iname := "", format := "", size := 0, cap := 3 * blobEncLen ep / 4 }

theorem scanBlobs_eq (l : List XMLEle) :
    scanBlobs l = (l.filter (fun ep => blobChildValid ep)).map blobItemOf := by
  induction l with
  | nil => rfl
  | cons ep rest ih =>
      cases htag : (ep.tag == "oneBLOB") with
      | false =>
          simp [scanBlobs, blobChildValid, htag, ih]
      | true =>
          rcases hn : findXMLAtt ep "name" with _ | na <;>
            rcases hf : findXMLAtt ep "format" with _ | fa <;>
              rcases hs : findXMLAtt ep "size" with _ | sa <;>
                simp [scanBlobs, blobChildValid, blobItemOf, htag, hn, hf, hs, ih]

/-- C9 (amended): for every `oneBLOB` child with `name`, `format` and
    `size` attributes processed by `dispatch`, the decode buffer is
    allocated with capacity `3 * enclen / 4` rounded DOWN (C integer
    division `malloc(3 * bloblen / 4)`), where `enclen` is the `enclen`
    attribute value when present and the body length otherwise; this
    equals the claimed ceiling only when `3 * enclen` is divisible
    by 4. -/
theorem blob_capacity_floor (reg : List ROSC) (root : XMLEle) (dev nm : String)
    (prop : ROSC)
    (htag : root.tag = "newBLOBVector")
    (hcrack : crackDN root = .ok (dev, nm))
    (hfind : rosc_find reg nm dev = some prop)
    (hperm : prop.perm ≠ .IP_RO)
    (hne : root.children.filter (fun ep => blobChildValid ep) ≠ []) :
    dispatch reg root = .ret 0 none
      [Event.isNewBLOB dev nm
        ((root.children.filter (fun ep => blobChildValid ep)).map blobItemOf)] ∧
    ∀ ep ∈ root.children, blobChildValid ep →
      (blobItemOf ep).cap = 3 * blobEncLen ep / 4 := by
  have hclass : rootClass root.tag = .other := by rw [htag]; decide
  have hnew : newClass root.tag = .blob := by rw [htag]; decide
  have hb : (prop.perm == IPerm.IP_RO) = false := beq_eq_false_iff_ne.mpr hperm
  have hempty : ((root.children.filter (fun ep => blobChildValid ep)).map blobItemOf).isEmpty
      = false := by
    rw [List.isEmpty_eq_false]
    simp only [ne_eq, List.map_eq_nil_iff]
    exact hne
  constructor
  · simp only [dispatch, hclass, hcrack, hfind, hb, Bool.false_eq_true, if_false, hnew,
      dispatchNewBLOB, scanBlobs_eq, hempty]
  · intro ep _ _
    unfold blobItemOf
    split <;> rfl

def rootC9 : XMLEle := .mk "newBLOBVector" [⟨"device", "D"⟩, ⟨"name", "N"⟩]
  [.mk "oneBLOB" [⟨"name", "B"⟩, ⟨"format", ".fits"⟩, ⟨"size", "1"⟩, ⟨"enclen", "2"⟩] [] "QQ"] ""

def regC9 : List ROSC := [⟨"N", "D", .IP_RW, .INDI_BLOB⟩]

/-- C9 counterexample: a `oneBLOB` child with `enclen="2"` gets a decode
    buffer of capacity `3 * 2 / 4 = 1`, while the claimed ceiling
    `⌈3 * 2 / 4⌉ = 2` — the capacity is the floor, not the ceiling. -/
theorem blob_capacity_cex :
    dispatch regC9 rootC9 =
      .ret 0 none [.isNewBLOB "D" "N"
        [{ iname := "B", format := ".fits", size := 1, cap := 1 }]] ∧
    (3 * 2 + 3) / 4 = 2 ∧ (1 : Nat) ≠ 2 :=
  ⟨rfl, by decide, by decide⟩

/-- C9 witness: the concrete `newBLOBVector` run evaluates the amended
    capacity law. -/
theorem blob_capacity_floor_witness :
    dispatch regC9 rootC9 = .ret 0 none
      [Event.isNewBLOB "D" "N"
        ((rootC9.children.filter (fun ep => blobChildValid ep)).map blobItemOf)] ∧
    ∀ ep ∈ rootC9.children, blobChildValid ep →
      (blobItemOf ep).cap = 3 * blobEncLen ep / 4 :=
  blob_capacity_floor regC9 rootC9 "D" "N" ⟨"N", "D", .IP_RW, .INDI_BLOB⟩
    rfl rfl rfl (by decide) (List.cons_ne_nil _ _)

theorem pendingPings_append (a b : List BlobEvent) :
    pendingPings (a ++ b) = pendingPings a + pendingPings b := by
  simp only [pendingPings, pingRequests, pingWaits, List.filter_append, List.length_append]
  push_cast
  ring

theorem pendingPings_step (u : Nat) :
    pendingPings (IDSetBLOBStep u).1 = if u = 0 then 1 else 0 := by
  cases u with
  | zero => rfl
  | succ n =>
      simp [IDSetBLOBStep, pendingPings, pingRequests, pingWaits]

theorem pendingPings_trace (n : Nat) :
    pendingPings (blobTrace n) = if n = 0 then 0 else 1 := by
  induction n with
  | zero => rfl
  | succ n ih =>
      rw [blobTrace, pendingPings_append, ih, pendingPings_step]
      cases n <;> simp

theorem step_prefix_pending (u : Nat) (r q : List BlobEvent)
    (h : (IDSetBLOBStep u).1 = r ++ q) :
    (u = 0 → pendingPings r = 0 ∨ pendingPings r = 1) ∧
    (u ≠ 0 → pendingPings r = 0 ∨ pendingPings r = -1) := by
  cases u with
  | zero =>
      refine ⟨fun _ => ?_, fun hu => absurd rfl hu⟩
      simp only [IDSetBLOBStep, ne_eq, not_true_eq_false, if_false, ite_false,
        List.nil_append] at h
      rcases r with _ | ⟨e1, r⟩
      · left; rfl
      · rcases r with _ | ⟨e2, r⟩
        · simp only [List.cons_append, List.cons.injEq] at h
          obtain ⟨he1, -⟩ := h
          subst he1; left; rfl
        · rcases r with _ | ⟨e3, r⟩
          · simp only [List.cons_append, List.nil_append, List.cons.injEq] at h
            obtain ⟨he1, he2, -⟩ := h
            subst he1; subst he2; right; rfl
          · simp only [List.cons_append, List.cons.injEq] at h
            exact absurd h.2.2 (by simp)
  | succ n =>
      refine ⟨fun hu => absurd hu (Nat.succ_ne_zero n), fun _ => ?_⟩
      simp only [IDSetBLOBStep, ne_eq, Nat.succ_ne_zero, not_false_eq_true, if_true,
        ite_true, List.cons_append, List.nil_append] at h
      rcases r with _ | ⟨e1, r⟩
      · left; rfl
      · rcases r with _ | ⟨e2, r⟩
        · simp only [List.cons_append, List.cons.injEq] at h
          obtain ⟨he1, -⟩ := h
          subst he1; right; rfl
        · rcases r with _ | ⟨e3, r⟩
          · simp only [List.cons_append, List.nil_append, List.cons.injEq] at h
            obtain ⟨he1, he2, -⟩ := h
            subst he1; subst he2; right; rfl
          · rcases r with _ | ⟨e4, r⟩
            · simp only [List.cons_append, List.nil_append, List.cons.injEq] at h
              obtain ⟨he1, he2, he3, -⟩ := h
              subst he1; subst he2; subst he3; left; rfl
            · simp only [List.cons_append, List.cons.injEq] at h
              exact absurd h.2.2.2 (by simp)

theorem pendingPings_prefix (n : Nat) (p q : List BlobEvent)
    (h : blobTrace n = p ++ q) :
    pendingPings p = 0 ∨ pendingPings p = 1 := by
  induction n generalizing p q with
  | zero =>
      have hp : p = [] := (List.append_eq_nil.mp h.symm).1
      left; rw [hp]; rfl
  | succ n ih =>
      rw [blobTrace] at h
      rcases List.append_eq_append_iff.mp h with ⟨r, hr1, hr2⟩ | ⟨r, hr1, hr2⟩
      · subst hr1
        rw [pendingPings_append, pendingPings_trace]
        have hsp := step_prefix_pending n r q hr2
        cases hn : decide (n = 0) with
        | true =>
            have hn' : n = 0 := of_decide_eq_true hn
            rcases hsp.1 hn' with h0 | h0 <;> simp [hn', h0]
        | false =>
            have hn' : n ≠ 0 := of_decide_eq_false hn
            rcases hsp.2 hn' with h0 | h0 <;> simp [hn', h0]
      · exact ih p r hr1

/-- C6: each `IDSetBLOB` call bumps the process-wide ping counter
    exactly once; every call after the first first blocks in
    `waitPingReply` on the previous ping id `SetBLOB/<P>` before emitting
    its `setBLOBVector` element and the new `pingRequest SetBLOB/<P+1>`;
    and on every prefix of the event stream of consecutive calls, at most
    one ping id is pending (requested but not yet acknowledged). -/
theorem blob_ping_pacing (u n : Nat) (p q : List BlobEvent)
    (hu : u ≠ 0) (hpq : blobTrace n = p ++ q) :
    (IDSetBLOBStep u).2 = u + 1 ∧
    (IDSetBLOBStep u).1 =
      [BlobEvent.waitReply (blobPingTag u), BlobEvent.setBLOBVector,
        BlobEvent.pingRequest (blobPingTag (u + 1))] ∧
    pendingPings p ≤ 1 ∧ 0 ≤ pendingPings p := by
  refine ⟨rfl, ?_, ?_, ?_⟩
  · simp [IDSetBLOBStep, hu]
  · rcases pendingPings_prefix n p q hpq with h | h <;> simp [h]
  · rcases pendingPings_prefix n p q hpq with h | h <;> simp [h]

/-- C6 witness: the second call (counter 1) waits on `SetBLOB/1` before
    emitting, and the two-call trace never has more than one pending
    ping. -/
theorem blob_ping_pacing_witness :
    (IDSetBLOBStep 1).2 = 1 + 1 ∧
    (IDSetBLOBStep 1).1 =
      [BlobEvent.waitReply (blobPingTag 1), BlobEvent.setBLOBVector,
        BlobEvent.pingRequest (blobPingTag (1 + 1))] ∧
    pendingPings (blobTrace 2) ≤ 1 ∧ 0 ≤ pendingPings (blobTrace 2) :=
  blob_ping_pacing 1 2 (blobTrace 2) [] (by decide) (by simp)

def applySwitchPairs (sps : List ISwitch) (pairs : List (String × ISState)) : List ISwitch :=
  pairs.foldl (fun acc p => setFirstSwitch acc p.1 p.2) sps

def oneOfManyRestore (sps : List ISwitch) : List ISwitch :=
  match firstOnIdx sps with
  | some i => setSwitchIdx (IUResetSwitch sps) i
  | none => IUResetSwitch sps

theorem findCons_pos {α : Type} (p : α → Bool) (a : α) (l : List α) (h : p a = true) :
    List.find? p (a :: l) = some a := by
  simp [List.find?, h]

theorem findCons_neg {α : Type} (p : α → Bool) (a : α) (l : List α) (h : p a = false) :
    List.find? p (a :: l) = List.find? p l := by
  simp [List.find?, h]

theorem findSwitch_setFirst_none (sps : List ISwitch) (x nm : String) (st : ISState) :
    (IUFindSwitch (setFirstSwitch sps x st) nm = none) ↔ (IUFindSwitch sps nm = none) := by
  induction sps with
  | nil => exact Iff.rfl
  | cons sp rest ih =>
      rw [setFirstSwitch]
      by_cases hx : (sp.sname == x) = true
      · rw [if_pos hx]
        cases hn : (sp.sname == nm) with
        | true =>
            unfold IUFindSwitch
            rw [findCons_pos (fun sp : ISwitch => sp.sname == nm) _ _ (by simpa using hn),
              findCons_pos (fun sp : ISwitch => sp.sname == nm) _ _ hn]
            simp
        | false =>
            unfold IUFindSwitch
            rw [findCons_neg (fun sp : ISwitch => sp.sname == nm) _ _ (by simpa using hn),
              findCons_neg (fun sp : ISwitch => sp.sname == nm) _ _ hn]
      · rw [if_neg hx]
        cases hn : (sp.sname == nm) with
        | true =>
            unfold IUFindSwitch
            rw [findCons_pos (fun sp : ISwitch => sp.sname == nm) _ _ hn,
              findCons_pos (fun sp : ISwitch => sp.sname == nm) _ _ hn]
        | false =>
            unfold IUFindSwitch
            rw [findCons_neg (fun sp : ISwitch => sp.sname == nm) _ _ hn,
              findCons_neg (fun sp : ISwitch => sp.sname == nm) _ _ hn]
            exact ih

theorem findSwitch_reset_none (sps : List ISwitch) (nm : String) :
    (IUFindSwitch (IUResetSwitch sps) nm = none) ↔ (IUFindSwitch sps nm = none) := by
  induction sps with
  | nil => exact Iff.rfl
  | cons sp rest ih =>
      rw [IUResetSwitch, List.map_cons]
      cases hn : (sp.sname == nm) with
      | true =>
          unfold IUFindSwitch
          rw [findCons_pos (fun sp : ISwitch => sp.sname == nm) _ _ (by simpa using hn),
            findCons_pos (fun sp : ISwitch => sp.sname == nm) _ _ hn]
          simp
      | false =>
          unfold IUFindSwitch
          rw [findCons_neg (fun sp : ISwitch => sp.sname == nm) _ _ (by simpa using hn),
            findCons_neg (fun sp : ISwitch => sp.sname == nm) _ _ hn]
          exact ih

theorem switchLoop_ok (pairs : List (String × ISState)) (sps : List ISwitch)
    (h : ∀ p ∈ pairs, IUFindSwitch sps p.1 ≠ none) :
    switchLoop sps pairs = .ok (applySwitchPairs sps pairs) := by
  induction pairs generalizing sps with
  | nil => rfl
  | cons hd rest ih =>
      obtain ⟨y, hy⟩ := Option.ne_none_iff_exists'.mp (h hd (by simp))
      simp only [switchLoop, hy, applySwitchPairs, List.foldl]
      exact ih (setFirstSwitch sps hd.1 hd.2) (fun p hp => by
        intro hnone
        exact h p (by simp [hp]) ((findSwitch_setFirst_none sps hd.1 p.1 hd.2).mp hnone))

theorem switchLoop_missing (pairs : List (String × ISState)) (sps : List ISwitch)
    (h : ∃ p ∈ pairs, IUFindSwitch sps p.1 = none) :
    ∃ b r, switchLoop sps pairs = .missing b r := by
  induction pairs generalizing sps with
  | nil => obtain ⟨p, hp, -⟩ := h; exact absurd hp (List.not_mem_nil p)
  | cons hd rest ih =>
      rcases hfind : IUFindSwitch sps hd.1 with _ | y
      · exact ⟨hd.1, sps, by simp [switchLoop, hfind]⟩
      · obtain ⟨p, hp, hnone⟩ := h
        rcases List.mem_cons.mp hp with rfl | hmem
        · rw [hfind] at hnone; cases hnone
        · obtain ⟨b, r, hout⟩ := ih (setFirstSwitch sps hd.1 hd.2)
            ⟨p, hmem, (findSwitch_setFirst_none sps hd.1 p.1 hd.2).mpr hnone⟩
          exact ⟨b, r, by simp [switchLoop, hfind, hout]⟩

theorem reset_setFirst (sps : List ISwitch) (x : String) (st : ISState) :
    IUResetSwitch (setFirstSwitch sps x st) = IUResetSwitch sps := by
  induction sps with
  | nil => rfl
  | cons sp rest ih =>
      rw [setFirstSwitch]
      by_cases hx : (sp.sname == x) = true
      · rw [if_pos hx]; rfl
      · rw [if_neg hx]
        simp only [IUResetSwitch, List.map_cons] at ih ⊢
        rw [ih]

theorem reset_apply (pairs : List (String × ISState)) (sps : List ISwitch) :
    IUResetSwitch (applySwitchPairs sps pairs) = IUResetSwitch sps := by
  induction pairs generalizing sps with
  | nil => rfl
  | cons hd rest ih =>
      simp only [applySwitchPairs, List.foldl]
      rw [show List.foldl (fun acc p => setFirstSwitch acc p.1 p.2)
            (setFirstSwitch sps hd.1 hd.2) rest =
          applySwitchPairs (setFirstSwitch sps hd.1 hd.2) rest from rfl,
        ih, reset_setFirst]

theorem reset_reset (sps : List ISwitch) :
    IUResetSwitch (IUResetSwitch sps) = IUResetSwitch sps := by
  simp [IUResetSwitch, List.map_map]

/-- C5: for every switch vector with rule `ISR_1OFMANY`, any
    `IUUpdateSwitch` call returning 0 leaves exactly one member On; and
    any batch of resolvable names whose application would leave a number
    of On members different from 1 is rejected with -1, the previously-On
    member restored to On with all others Off, the state set to
    `IPS_IDLE`, and an error message containing `No switch is on` or
    `Too many switches are on`. -/
theorem one_of_many_invariant (svp : ISwitchVectorProperty) (pairs : List (String × ISState))
    (hrule : svp.r = .ISR_1OFMANY) :
    ((IUUpdateSwitch svp pairs).code = 0 → onCount (IUUpdateSwitch svp pairs).svp.sp = 1) ∧
    ((∀ p ∈ pairs, IUFindSwitch svp.sp p.1 ≠ none) →
      onCount (applySwitchPairs (IUResetSwitch svp.sp) pairs) ≠ 1 →
      (IUUpdateSwitch svp pairs).code = -1 ∧
      (IUUpdateSwitch svp pairs).svp.sp = oneOfManyRestore svp.sp ∧
      (IUUpdateSwitch svp pairs).svp.s = .IPS_IDLE ∧
      ∃ m ∈ (IUUpdateSwitch svp pairs).msgs,
        (∃ a b, m = a ++ "No switch is on" ++ b) ∨
        (∃ a b, m = a ++ "Too many switches are on" ++ b)) := by
  have hbeq : (svp.r == ISRule.ISR_1OFMANY) = true := by rw [hrule]; rfl
  constructor
  · intro hcode
    rcases hloop : switchLoop (IUResetSwitch svp.sp) pairs with sps1 | ⟨b, sps2⟩
    · simp only [IUUpdateSwitch, hbeq, if_true, ite_true, hloop] at hcode ⊢
      cases hcnt : (onCount sps1 != 1) with
      | true => simp [hcnt] at hcode
      | false =>
          simp only [hcnt, Bool.false_eq_true, if_false, ite_false]
          simpa using hcnt
    · simp only [IUUpdateSwitch, hbeq, if_true, ite_true, hloop] at hcode
      exact absurd hcode (by decide)
  · intro hall hcnt
    have hall0 : ∀ p ∈ pairs, IUFindSwitch (IUResetSwitch svp.sp) p.1 ≠ none :=
      fun p hp hnone => hall p hp ((findSwitch_reset_none svp.sp p.1).mp hnone)
    have hloop := switchLoop_ok pairs (IUResetSwitch svp.sp) hall0
    have hbne : (onCount (applySwitchPairs (IUResetSwitch svp.sp) pairs) != 1) = true := by
      simpa using hcnt
    simp only [IUUpdateSwitch, hbeq, if_true, ite_true, hloop, hbne]
    refine ⟨trivial, ?_, trivial, ?_⟩
    · rw [reset_apply, reset_reset, oneOfManyRestore]
    · cases hz : (onCount (applySwitchPairs (IUResetSwitch svp.sp) pairs) == 0) with
      | true =>
          simp only [hz, if_true, ite_true]
          exact ⟨_, List.mem_singleton_self _,
            Or.inl ⟨"Error: invalid state switch for property " ++ svp.vlabel ++ " (" ++
              svp.vname ++ "). ", ".", rfl⟩⟩
      | false =>
          simp only [hz, Bool.false_eq_true, if_false, ite_false]
          exact ⟨_, List.mem_singleton_self _,
            Or.inr ⟨"Error: invalid state switch for property " ++ svp.vlabel ++ " (" ++
              svp.vname ++ "). ", ".", rfl⟩⟩

def svpC5 : ISwitchVectorProperty :=
  { device := "Mount", vname := "CONNECTION", vlabel := "Connection",
    r := .ISR_1OFMANY, s := .IPS_OK,
    sp := [⟨"A", "A", .ISS_ON⟩, ⟨"B", "B", .ISS_OFF⟩] }

def pairsC5 : List (String × ISState) := [("A", .ISS_OFF), ("B", .ISS_OFF)]

/-- C5 witness: the all-Off batch on `[(A, On), (B, Off)]` is rejected
    and the previous On member restored. -/
theorem one_of_many_invariant_witness :
    ((IUUpdateSwitch svpC5 pairsC5).code = 0 → onCount (IUUpdateSwitch svpC5 pairsC5).svp.sp = 1) ∧
    ((IUUpdateSwitch svpC5 pairsC5).code = -1 ∧
      (IUUpdateSwitch svpC5 pairsC5).svp.sp = oneOfManyRestore svpC5.sp ∧
      (IUUpdateSwitch svpC5 pairsC5).svp.s = .IPS_IDLE ∧
      ∃ m ∈ (IUUpdateSwitch svpC5 pairsC5).msgs,
        (∃ a b, m = a ++ "No switch is on" ++ b) ∨
        (∃ a b, m = a ++ "Too many switches are on" ++ b)) :=
  ⟨(one_of_many_invariant svpC5 pairsC5 rfl).1,
    (one_of_many_invariant svpC5 pairsC5 rfl).2 (by decide) (by decide)⟩

theorem numberCheck_fails (pairs : List (String × Rat)) (nps : List INumber)
    (h : ∃ p ∈ pairs, IUFindNumber nps p.1 = none) :
    (∃ b, numberCheckLoop nps pairs = .missing b) ∨
    (∃ np v, numberCheckLoop nps pairs = .range np v) := by
  induction pairs with
  | nil => obtain ⟨p, hp, -⟩ := h; exact absurd hp (List.not_mem_nil p)
  | cons hd rest ih =>
      rcases hfind : IUFindNumber nps hd.1 with _ | np
      · exact Or.inl ⟨hd.1, by simp [numberCheckLoop, hfind]⟩
      · by_cases hr : (hd.2 < np.min ∨ hd.2 > np.max)
        · exact Or.inr ⟨np, hd.2, by simp [numberCheckLoop, hfind, hr]⟩
        · obtain ⟨p, hp, hnone⟩ := h
          rcases List.mem_cons.mp hp with rfl | hmem
          · rw [hfind] at hnone; cases hnone
          · have := ih ⟨p, hmem, hnone⟩
            simpa [numberCheckLoop, hfind, hr] using this

theorem numberCheck_ok (pairs : List (String × Rat)) (nps : List INumber)
    (h : ∀ p ∈ pairs, ∃ np, IUFindNumber nps p.1 = some np ∧ np.min ≤ p.2 ∧ p.2 ≤ np.max) :
    numberCheckLoop nps pairs = .ok := by
  induction pairs with
  | nil => rfl
  | cons hd rest ih =>
      obtain ⟨np, hfind, h1, h2⟩ := h hd (by simp)
      have hcond : ¬(hd.2 < np.min ∨ hd.2 > np.max) := by
        push_neg
        exact ⟨h1, h2⟩
      simp [numberCheckLoop, hfind, hcond, ih (fun p hp => h p (by simp [hp]))]

theorem numberCheck_range (pairs : List (String × Rat)) (nps : List INumber)
    (hall : ∀ p ∈ pairs, (IUFindNumber nps p.1).isSome)
    (h : ∃ p ∈ pairs, ∃ np, IUFindNumber nps p.1 = some np ∧ (p.2 < np.min ∨ p.2 > np.max)) :
    ∃ np v, numberCheckLoop nps pairs = .range np v := by
  induction pairs with
  | nil => obtain ⟨p, hp, -⟩ := h; exact absurd hp (List.not_mem_nil p)
  | cons hd rest ih =>
      have hsome := hall hd (by simp)
      rcases hfind : IUFindNumber nps hd.1 with _ | np
      · rw [hfind] at hsome; simp at hsome
      · by_cases hr : (hd.2 < np.min ∨ hd.2 > np.max)
        · exact ⟨np, hd.2, by simp [numberCheckLoop, hfind, hr]⟩
        · obtain ⟨p, hp, np', hfind', hviol⟩ := h
          rcases List.mem_cons.mp hp with rfl | hmem
          · rw [hfind] at hfind'
            injection hfind' with he
            subst he
            exact absurd hviol hr
          · obtain ⟨np2, v2, hout⟩ := ih (fun p hp => hall p (by simp [hp]))
              ⟨p, hmem, np', hfind', hviol⟩
            exact ⟨np2, v2, by simp [numberCheckLoop, hfind, hr, hout]⟩

theorem textCheck_missing (pairs : List (String × String)) (tps : List IText)
    (h : ∃ p ∈ pairs, IUFindText tps p.1 = none) :
    ∃ b, textCheckLoop tps pairs = some b := by
  induction pairs with
  | nil => obtain ⟨p, hp, -⟩ := h; exact absurd hp (List.not_mem_nil p)
  | cons hd rest ih =>
      rcases hfind : IUFindText tps hd.1 with _ | tp
      · exact ⟨hd.1, by simp [textCheckLoop, hfind]⟩
      · obtain ⟨p, hp, hnone⟩ := h
        rcases List.mem_cons.mp hp with rfl | hmem
        · rw [hfind] at hnone; cases hnone
        · obtain ⟨b, hout⟩ := ih ⟨p, hmem, hnone⟩
          exact ⟨b, by simp [textCheckLoop, hfind, hout]⟩

theorem blobCheck_missing (pairs : List BlobPair) (bps : List IBLOB)
    (h : ∃ pr ∈ pairs, IUFindBLOB bps pr.pname = none) :
    ∃ b, blobCheckLoop bps pairs = some b := by
  induction pairs with
  | nil => obtain ⟨p, hp, -⟩ := h; exact absurd hp (List.not_mem_nil p)
  | cons hd rest ih =>
      rcases hfind : IUFindBLOB bps hd.pname with _ | bp
      · exact ⟨hd.pname, by simp [blobCheckLoop, hfind]⟩
      · obtain ⟨p, hp, hnone⟩ := h
        rcases List.mem_cons.mp hp with rfl | hmem
        · rw [hfind] at hnone; cases hnone
        · obtain ⟨b, hout⟩ := ih ⟨p, hmem, hnone⟩
          exact ⟨b, by simp [blobCheckLoop, hfind, hout]⟩

/-- C3 (amended): `IUUpdateNumber`, `IUUpdateText` and `IUUpdateBLOB` are
    two-pass — when any named element is absent they return -1 with the
    member list unchanged — while `IUUpdateSwitch` only returns -1 on an
    absent name: it validates while mutating, so earlier writes (and the
    `ISR_1OFMANY` reset) are kept (see the counterexample). -/
theorem applicators_absent_name :
    (∀ (nvp : INumberVectorProperty) (pairs : List (String × Rat)),
      (∃ p ∈ pairs, IUFindNumber nvp.np p.1 = none) →
      (IUUpdateNumber nvp pairs).code = -1 ∧ (IUUpdateNumber nvp pairs).nvp.np = nvp.np) ∧
    (∀ (tvp : ITextVectorProperty) (pairs : List (String × String)),
      (∃ p ∈ pairs, IUFindText tvp.tp p.1 = none) →
      (IUUpdateText tvp pairs).code = -1 ∧ (IUUpdateText tvp pairs).tvp.tp = tvp.tp) ∧
    (∀ (bvp : IBLOBVectorProperty) (pairs : List BlobPair),
      (∃ pr ∈ pairs, IUFindBLOB bvp.bp pr.pname = none) →
      (IUUpdateBLOB bvp pairs).code = -1 ∧ (IUUpdateBLOB bvp pairs).bvp.bp = bvp.bp) ∧
    (∀ (svp : ISwitchVectorProperty) (pairs : List (String × ISState)),
      (∃ p ∈ pairs, IUFindSwitch svp.sp p.1 = none) →
      (IUUpdateSwitch svp pairs).code = -1) := by
  refine ⟨?_, ?_, ?_, ?_⟩
  · intro nvp pairs h
    rcases numberCheck_fails pairs nvp.np h with ⟨b, hout⟩ | ⟨np, v, hout⟩ <;>
      simp [IUUpdateNumber, hout]
  · intro tvp pairs h
    obtain ⟨b, hout⟩ := textCheck_missing pairs tvp.tp h
    simp [IUUpdateText, hout]
  · intro bvp pairs h
    obtain ⟨b, hout⟩ := blobCheck_missing pairs bvp.bp h
    simp [IUUpdateBLOB, hout]
  · intro svp pairs h
    have h0 : ∃ p ∈ pairs,
        IUFindSwitch (if svp.r == ISRule.ISR_1OFMANY then IUResetSwitch svp.sp else svp.sp)
          p.1 = none := by
      obtain ⟨p, hp, hnone⟩ := h
      refine ⟨p, hp, ?_⟩
      by_cases hh : (svp.r == ISRule.ISR_1OFMANY) = true
      · simp only [hh, if_true, ite_true]
        exact (findSwitch_reset_none svp.sp p.1).mpr hnone
      · simp only [hh, Bool.false_eq_true, if_false, ite_false]
        exact hnone
    obtain ⟨b, r, hout⟩ := switchLoop_missing pairs _ h0
    simp only [beq_iff_eq] at hout
    simp [IUUpdateSwitch, hout]

def svpC3 : ISwitchVectorProperty :=
  { device := "D", vname := "P", vlabel := "P", r := .ISR_NOFMANY, s := .IPS_OK,
    sp := [⟨"A", "A", .ISS_ON⟩] }

def pairsC3 : List (String × ISState) := [("A", .ISS_OFF), ("B", .ISS_ON)]

/-- C3 counterexample: `IUUpdateSwitch` on a vector whose only member `A`
    is On, with the batch `[(A, Off), (B, On)]` where `B` is absent,
    returns -1 but leaves `A` switched Off — an element was modified even
    though a named element was absent, refuting the claim that every batch
    applicator is two-pass and mutation-free on failure. -/
theorem applicators_not_two_pass_cex :
    (∃ p ∈ pairsC3, IUFindSwitch svpC3.sp p.1 = none) ∧
    (IUUpdateSwitch svpC3 pairsC3).code = -1 ∧
    (IUUpdateSwitch svpC3 pairsC3).svp.sp ≠ svpC3.sp := by
  decide

def nvpC3w : INumberVectorProperty :=
  { device := "D", vname := "P", vlabel := "P", p := .IP_RW, s := .IPS_OK,
    np := [⟨"E", "E", "%g", 0, 10, 1, 5⟩] }

/-- C3 witness: a number batch naming the absent member `X` fails with
    -1 and leaves the member list unchanged. -/
theorem applicators_absent_name_witness :
    (IUUpdateNumber nvpC3w [("X", 1)]).code = -1 ∧
    (IUUpdateNumber nvpC3w [("X", 1)]).nvp.np = nvpC3w.np :=
  applicators_absent_name.1 nvpC3w [("X", 1)] ⟨("X", 1), by simp, rfl⟩

def lastVal : List (String × Rat) → String → Option Rat
  | [], _ => none
  | (x, v) :: rest, nm =>
      match lastVal rest nm with
      | some w => some w
      | none => if x == nm then some v else none

theorem lastVal_mem (pairs : List (String × Rat)) (x : String) (v : Rat)
    (h : (x, v) ∈ pairs) : ∃ w, lastVal pairs x = some w := by
  induction pairs with
  | nil => cases h
  | cons hd rest ih =>
      rcases List.mem_cons.mp h with heq | hmem
      · rcases hl : lastVal rest x with _ | w
        · exact ⟨v, by simp [← heq, lastVal, hl]⟩
        · exact ⟨w, by simp [← heq, lastVal, hl]⟩
      · obtain ⟨w, hw⟩ := ih hmem
        obtain ⟨y, u⟩ := hd
        exact ⟨w, by simp [lastVal, hw]⟩

theorem findNumber_setFirst_self (nps : List INumber) (x : String) (v : Rat) :
    IUFindNumber (setFirstNumber nps x v) x =
      (IUFindNumber nps x).map (fun np => { np with value := v }) := by
  induction nps with
  | nil => rfl
  | cons np rest ih =>
      rw [setFirstNumber]
      cases hx : (np.nname == x) with
      | true =>
          rw [if_pos rfl]
          unfold IUFindNumber
          rw [findCons_pos (fun q : INumber => q.nname == x) _ _ (by simpa using hx),
            findCons_pos (fun q : INumber => q.nname == x) _ _ hx]
          rfl
      | false =>
          rw [if_neg (by simp)]
          unfold IUFindNumber
          rw [findCons_neg (fun q : INumber => q.nname == x) _ _ hx,
            findCons_neg (fun q : INumber => q.nname == x) _ _ hx]
          exact ih

theorem findNumber_setFirst_other (nps : List INumber) (x nm : String) (v : Rat)
    (hne : x ≠ nm) :
    IUFindNumber (setFirstNumber nps x v) nm = IUFindNumber nps nm := by
  induction nps with
  | nil => rfl
  | cons np rest ih =>
      rw [setFirstNumber]
      cases hx : (np.nname == x) with
      | true =>
          rw [if_pos rfl]
          have hxx : np.nname = x := by simpa using hx
          have hn : (np.nname == nm) = false := by
            rw [hxx]
            exact beq_eq_false_iff_ne.mpr hne
          unfold IUFindNumber
          rw [findCons_neg (fun q : INumber => q.nname == nm) _ _ (by simpa using hn),
            findCons_neg (fun q : INumber => q.nname == nm) _ _ hn]
      | false =>
          rw [if_neg (by simp)]
          unfold IUFindNumber
          cases hn : (np.nname == nm) with
          | true =>
              rw [findCons_pos (fun q : INumber => q.nname == nm) _ _ hn,
                findCons_pos (fun q : INumber => q.nname == nm) _ _ hn]
          | false =>
              rw [findCons_neg (fun q : INumber => q.nname == nm) _ _ hn,
                findCons_neg (fun q : INumber => q.nname == nm) _ _ hn]
              exact ih

theorem findNumber_applyPairs (pairs : List (String × Rat)) (nps : List INumber)
    (nm : String) :
    IUFindNumber (applyNumberPairs nps pairs) nm =
      match lastVal pairs nm with
      | some w => (IUFindNumber nps nm).map (fun np => { np with value := w })
      | none => IUFindNumber nps nm := by
  induction pairs generalizing nps with
  | nil => rfl
  | cons hd rest ih =>
      obtain ⟨x, v⟩ := hd
      rw [show applyNumberPairs nps ((x, v) :: rest) =
            applyNumberPairs (setFirstNumber nps x v) rest from rfl, ih]
      by_cases hxn : x = nm
      · subst hxn
        rcases hl : lastVal rest x with _ | w
        · simp only [lastVal, hl, beq_self_eq_true, if_true, ite_true]
          exact findNumber_setFirst_self nps x v
        · simp only [lastVal, hl]
          rw [findNumber_setFirst_self nps x v]
          cases IUFindNumber nps x <;> rfl
      · have hbx : (x == nm) = false := beq_eq_false_iff_ne.mpr hxn
        rcases hl : lastVal rest nm with _ | w
        · simp only [lastVal, hl, hbx, Bool.false_eq_true, if_false, ite_false]
          exact findNumber_setFirst_other nps x nm v hxn
        · simp only [lastVal, hl]
          rw [findNumber_setFirst_other nps x nm v hxn]

/-- C4 (amended): `IUUpdateNumber` (a) returns 0 and sets every named
    element to its (last) requested value when every name resolves and
    every value is within `[min, max]`; (b) returns -1 with state
    `IPS_ALERT` and the member list unchanged when every name resolves and
    some value is out of range; (c) returns -1 with the member list
    unchanged when some name is absent (the state is then `IPS_IDLE`, not
    `IPS_ALERT` — see the counterexample); no partial update occurs. -/
theorem update_number_branches (nvp : INumberVectorProperty) (pairs : List (String × Rat)) :
    ((∀ p ∈ pairs, ∃ np, IUFindNumber nvp.np p.1 = some np ∧ np.min ≤ p.2 ∧ p.2 ≤ np.max) →
      (IUUpdateNumber nvp pairs).code = 0 ∧
      ∀ p ∈ pairs, ∃ w np1, lastVal pairs p.1 = some w ∧
        IUFindNumber (IUUpdateNumber nvp pairs).nvp.np p.1 = some np1 ∧ np1.value = w) ∧
    ((∀ p ∈ pairs, (IUFindNumber nvp.np p.1).isSome) →
      (∃ p ∈ pairs, ∃ np, IUFindNumber nvp.np p.1 = some np ∧ (p.2 < np.min ∨ p.2 > np.max)) →
      (IUUpdateNumber nvp pairs).code = -1 ∧
      (IUUpdateNumber nvp pairs).nvp.s = .IPS_ALERT ∧
      (IUUpdateNumber nvp pairs).nvp.np = nvp.np) ∧
    ((∃ p ∈ pairs, IUFindNumber nvp.np p.1 = none) →
      (IUUpdateNumber nvp pairs).code = -1 ∧
      (IUUpdateNumber nvp pairs).nvp.np = nvp.np) := by
  refine ⟨?_, ?_, ?_⟩
  · intro h
    have hok := numberCheck_ok pairs nvp.np h
    constructor
    · simp [IUUpdateNumber, hok]
    · intro p hp
      obtain ⟨w, hw⟩ := lastVal_mem pairs p.1 p.2 hp
      obtain ⟨np, hfind, -, -⟩ := h p hp
      refine ⟨w, { np with value := w }, hw, ?_, rfl⟩
      have hres : (IUUpdateNumber nvp pairs).nvp.np = applyNumberPairs nvp.np pairs := by
        simp [IUUpdateNumber, hok]
      rw [hres, findNumber_applyPairs pairs nvp.np p.1]
      simp only [hw, hfind, Option.map_some']
  · intro hall hviol
    obtain ⟨np, v, hout⟩ := numberCheck_range pairs nvp.np hall hviol
    simp [IUUpdateNumber, hout]
  · intro h
    rcases numberCheck_fails pairs nvp.np h with ⟨b, hout⟩ | ⟨np, v, hout⟩ <;>
      simp [IUUpdateNumber, hout]

def nvpC4 : INumberVectorProperty :=
  { device := "CCD", vname := "EXPOSURE", vlabel := "Exposure", p := .IP_RW, s := .IPS_OK,
    np := [⟨"EXP", "Exp", "%g", 0, 10, 1, 5⟩] }

def pairsC4 : List (String × Rat) := [("X", 0), ("EXP", 99)]

/-- C4 counterexample: the batch `[(X, 0), (EXP, 99)]` against a vector
    with the single member `EXP` in `[0, 10]` does contain an out-of-range
    value, yet `IUUpdateNumber` returns -1 with state `IPS_IDLE`, not
    `IPS_ALERT` as the claim's branch (b) states — the missing name `X`
    is found first by the validation loop. -/
theorem update_number_alert_cex :
    (∃ p ∈ pairsC4, ∃ np, IUFindNumber nvpC4.np p.1 = some np ∧ (p.2 < np.min ∨ p.2 > np.max)) ∧
    (IUUpdateNumber nvpC4 pairsC4).code = -1 ∧
    (IUUpdateNumber nvpC4 pairsC4).nvp.s = .IPS_IDLE ∧
    IPState.IPS_IDLE ≠ IPState.IPS_ALERT := by
  decide

/-- C4 witness: the in-range batch `[(EXP, 7)]` succeeds and sets the
    member's value. -/
theorem update_number_branches_witness :
    (IUUpdateNumber nvpC4 [("EXP", 7)]).code = 0 ∧
    ∀ p ∈ [(("EXP" : String), (7 : Rat))], ∃ w np1,
      lastVal [("EXP", 7)] p.1 = some w ∧
      IUFindNumber (IUUpdateNumber nvpC4 [("EXP", 7)]).nvp.np p.1 = some np1 ∧ np1.value = w :=
  (update_number_branches nvpC4 [("EXP", 7)]).1 (by decide)
